import Mathlib

/-!
Shallow embedding of `transmission_cleanup.py` and verification of the
specification's claims about it.

The embedding covers the filesystem executor (`remove` and the per-item
deletion loops), the incomplete-directory cleanup
(`cleanup_incompletedir`), the torrents-directory reconciliation
(`cleanup_torrentsdir`) and the finished-task removal command
(`remove_finished`).  Filesystem state is a flat list of paths with
kinds; console output is a list of structured report events, one
constructor per `print`/`echo` call site; the single run is sequential,
so the check-then-act file-not-found race that the source guards with a
`try`/`except FileNotFoundError` cannot occur inside the model and that
handler is unreachable, while any other error of a destructive call
(modelled as a permission denial) propagates uncaught, exactly as in the
source.  String operations are modelled at code-point level, matching
Python `str` semantics.
-/

/-- Kind of a filesystem entry: regular file or directory. -/
inductive FsKind
  | file
  | dir
deriving DecidableEq, Repr

/-- Filesystem model: a flat association of paths to kinds, plus the set of
paths on which a destructive call (`os.unlink` / `shutil.rmtree`) raises a
permission error. -/
structure FsState where
  entries : List (String × FsKind)
  denied : List String
deriving DecidableEq, Repr

/-- Console/report events, one constructor per `print`/`echo` call site of the
source that the claims are about. -/
inductive Report
  | readLocal (n : Nat)
  | readRemote (n : Nat)
  | dupGroup (hash : String) (members : List (Bool × String))
  | driftItem (hash : String)
  | abortNewItems (n : Int)
  | removed (path : String)
  | totalWillRemove (n : Nat)
deriving DecidableEq, Repr

/-- Errors a destructive filesystem call may raise that `remove` does not
catch (the source catches only `FileNotFoundError`). -/
inductive RemoveError
  | permissionDenied (path : String)
deriving DecidableEq, Repr

/-- `os.path.join` for one component. -/
def osJoin (a b : String) : String := a ++ "/" ++ b

/-- `os.path.basename`: the part of the path after the last slash, at
code-point level. -/
def basename (p : String) : String :=
  (p.toList.foldl (fun acc c => if c = '/' then [] else acc ++ [c]) []).asString

/-- Python `str.lower` restricted to what the info hashes need, at code-point
level. -/
def strToLower (s : String) : String := (s.toList.map Char.toLower).asString

/-- Python `str.endswith`, at code-point level. -/
def strEndsWith (s suffix : String) : Bool := suffix.toList.isSuffixOf s.toList

/-- Python slicing `name[:-n]`: all but the last `n` code points. -/
def strDropRight (s : String) (n : Nat) : String :=
  (s.toList.take (s.toList.length - n)).asString

/-- Kind of the entry at `path`, if present (`os.path.isfile` /
`os.path.isdir`). -/
def pathKind (fs : FsState) (path : String) : Option FsKind :=
  (fs.entries.find? (fun e => e.1 == path)).map (fun e => e.2)

/-- State change of `os.unlink` / `shutil.rmtree`: drop the entry at `path`. -/
def dropPath (fs : FsState) (path : String) : FsState :=
  { fs with entries := fs.entries.filter (fun e => e.1 != path) }

/-- `remove(path, dryrun)` (transmission_cleanup.py lines 44-58): if the path
is a file, unlink it unless dry-run and print `removed`; else if it is a
directory, remove the tree unless dry-run and print `removed`; an absent path
falls through both branches and nothing happens.  Only `FileNotFoundError` is
caught in the source; in this sequential model that race cannot occur, while a
permission failure of the destructive call propagates as an error. -/
def remove (fs : FsState) (path : String) (dryrun : Bool) :
    Except RemoveError (FsState × List Report) :=
  if pathKind fs path = some FsKind.file then
    if dryrun then Except.ok (fs, [Report.removed path])
    else if fs.denied.contains path then
      Except.error (RemoveError.permissionDenied path)
    else Except.ok (dropPath fs path, [Report.removed path])
  else if pathKind fs path = some FsKind.dir then
    if dryrun then Except.ok (fs, [Report.removed path])
    else if fs.denied.contains path then
      Except.error (RemoveError.permissionDenied path)
    else Except.ok (dropPath fs path, [Report.removed path])
  else Except.ok (fs, [])

/-- The per-item deletion loop (source lines 71-73 and 153-154): `remove` each
target in order; an uncaught error aborts the loop, leaving the state as it
was at the failing call and every later target untouched. -/
def removeAll (dryrun : Bool) : FsState → List String →
    FsState × List Report × Option RemoveError
  | fs, [] => (fs, [], none)
  | fs, p :: ps =>
    match remove fs p dryrun with
    | Except.error e => (fs, [], some e)
    | Except.ok (fs2, out) =>
      let r := removeAll dryrun fs2 ps
      (r.1, out ++ r.2.1, r.2.2)

/-- The report lines of one removal outcome. -/
def reportsOf : Except RemoveError (FsState × List Report) → List Report
  | Except.ok (_, out) => out
  | Except.error _ => []

/-- C6: with the dry-run flag set, `remove` performs no filesystem mutation for
any target path, whether it is a file, a directory, or absent; it only reports
the removal it would perform. -/
theorem C6_dryrun_non_mutating (fs : FsState) (path : String) :
    remove fs path true =
      Except.ok (fs,
        if pathKind fs path = some FsKind.file ∨ pathKind fs path = some FsKind.dir
        then [Report.removed path] else []) := by
  unfold remove
  split_ifs with h1 h2 h3 h4 <;> simp_all

/-- Filesystem for the C7 counterexample: two regular files, the first of
which is permission-denied. -/
def c7Fs : FsState := ⟨[("a", FsKind.file), ("b", FsKind.file)], ["a"]⟩

/-- C7 counterexample: a permission failure on the first target stops the
whole deletion loop; the second target is still a present file afterwards and
was never attempted, and no per-item failure report is emitted — contrary to
the claim that other targets are still attempted. -/
theorem C7_counterexample :
    removeAll false c7Fs ["a", "b"] =
      (c7Fs, [], some (RemoveError.permissionDenied "a")) ∧
    pathKind c7Fs "b" = some FsKind.file := by
  constructor
  · rfl
  · rfl

/-- C7 amended: an uncaught removal error on one target aborts the deletion
loop immediately: the filesystem is left as it was and no later target of the
set is attempted. -/
theorem C7_error_aborts_siblings (dryrun : Bool) (fs : FsState) (p : String)
    (ps : List String) (e : RemoveError)
    (h : remove fs p dryrun = Except.error e) :
    removeAll dryrun fs (p :: ps) = (fs, [], some e) := by
  unfold removeAll
  rw [h]

/-- Concrete instance of `C7_error_aborts_siblings`. -/
theorem C7_error_aborts_siblings_witness :
    removeAll false c7Fs ["a", "x"] =
      (c7Fs, [], some (RemoveError.permissionDenied "a")) :=
  C7_error_aborts_siblings false c7Fs "a" ["x"]
    (RemoveError.permissionDenied "a") (by rfl)

/-- The empty filesystem, used by the C8 theorems. -/
def c8Fs : FsState := ⟨[], []⟩

/-- C8 counterexample: removing an absent path raises no error, but it also
prints nothing — there is no success report for it, contrary to the claim
that the removal is reported as success. -/
theorem C8_counterexample :
    remove c8Fs "gone" false = Except.ok (c8Fs, []) ∧
    Report.removed "gone" ∉ reportsOf (remove c8Fs "gone" false) := by
  constructor
  · rfl
  · decide

/-- C8 amended: removal of an already-absent target raises no error, mutates
nothing and reports nothing; because the state is unchanged, running the same
removal again behaves identically and is likewise safe. -/
theorem C8_absent_target (fs : FsState) (path : String) (dryrun : Bool)
    (h : pathKind fs path = none) :
    remove fs path dryrun = Except.ok (fs, []) := by
  unfold remove
  rw [h]
  simp

/-- Concrete instance of `C8_absent_target`. -/
theorem C8_absent_target_witness :
    remove c8Fs "gone" true = Except.ok (c8Fs, []) :=
  C8_absent_target c8Fs "gone" true (by rfl)

/-- `IncompleteItem` (source lines 28-34): the path joins the directory and
the raw entry name; the stored name strips a trailing `.part`. -/
structure IncompleteItem where
  path : String
  name : String
deriving DecidableEq, Repr

/-- The `IncompleteItem` constructor body (lines 29-34). -/
def IncompleteItem.ofName (incomplete_dir name : String) : IncompleteItem :=
  { path := osJoin incomplete_dir name,
    name := if strEndsWith name ".part" then strDropRight name 5 else name }

/-- `collect_incomplete_items` (lines 36-39), applied to the directory
listing. -/
def collect_incomplete_items (incomplete_dir : String) (listing : List String) :
    List IncompleteItem :=
  listing.map (IncompleteItem.ofName incomplete_dir)

/-- The paths `cleanup_incompletedir` passes to `remove` (lines 71-73): the
items whose stripped name is not among the remote torrent names. -/
def incompleteRemoveTargets (incomplete_dir : String) (listing : List String)
    (names : List String) : List String :=
  ((collect_incomplete_items incomplete_dir listing).filter
    (fun it => !names.contains it.name)).map (fun it => it.path)

/-- `TransmissionHelper.cleanup_incompletedir` (lines 64-73): remove every
incomplete item whose stripped name matches no remote torrent name. -/
def cleanup_incompletedir (fs : FsState) (incomplete_dir : String)
    (listing : List String) (names : List String) (dryrun : Bool) :
    FsState × List Report × Option RemoveError :=
  removeAll dryrun fs (incompleteRemoveTargets incomplete_dir listing names)

theorem osJoin_right_inj {d a b : String} (h : osJoin d a = osJoin d b) :
    a = b := by
  have hd := congrArg String.data h
  simp only [osJoin, String.data_append] at hd
  exact congrArg String.mk (List.append_cancel_left hd)

/-- C9: an entry of the incomplete-downloads directory is passed to removal
exactly when its identity — the entry name with a trailing `.part` stripped —
is absent from the set of remote task display names. -/
theorem C9_incomplete_reconciliation (incomplete_dir : String)
    (listing names : List String) (name : String) (h : name ∈ listing) :
    osJoin incomplete_dir name ∈
        incompleteRemoveTargets incomplete_dir listing names ↔
      (if strEndsWith name ".part" then strDropRight name 5 else name) ∉
        names := by
  unfold incompleteRemoveTargets collect_incomplete_items
  constructor
  · intro hmem
    rcases List.mem_map.mp hmem with ⟨it, hit, hpath⟩
    rcases List.mem_filter.mp hit with ⟨hit2, hcond⟩
    rcases List.mem_map.mp hit2 with ⟨raw, _, hraw⟩
    have hpath2 : osJoin incomplete_dir raw = osJoin incomplete_dir name := by
      rw [← hpath, ← hraw]
      rfl
    have hrn : raw = name := osJoin_right_inj hpath2
    subst hrn
    subst hraw
    simp only [IncompleteItem.ofName, Bool.not_eq_true'] at hcond
    intro hin
    simp at hcond
    exact hcond hin
  · intro hnotin
    apply List.mem_map.mpr
    refine ⟨IncompleteItem.ofName incomplete_dir name, ?_, rfl⟩
    apply List.mem_filter.mpr
    constructor
    · exact List.mem_map.mpr ⟨name, h, rfl⟩
    · simp only [IncompleteItem.ofName, Bool.not_eq_true']
      simpa using hnotin

/-- Concrete instance of `C9_incomplete_reconciliation`: the orphaned partial
download `x.part` (identity `x`) is targeted when the daemon only knows `y`. -/
theorem C9_incomplete_reconciliation_witness :
    osJoin "inc" "x.part" ∈ incompleteRemoveTargets "inc" ["x.part"] ["y"] :=
  (C9_incomplete_reconciliation "inc" ["x.part"] ["y"] "x.part"
    (by decide)).mpr (by decide)

/-- A remote task as fetched by `cleanup_torrentsdir` (source line 117):
daemon id, info hash, and the path of the descriptor file the daemon
believes it loaded. -/
structure RTorrent where
  id : Nat
  hashString : String
  torrentFile : String
deriving DecidableEq, Repr

/-- A scanned descriptor file of the torrents directory: its file name and
its info hash, already lowercased, as computed in source lines 97-113. -/
structure FileEntry where
  name : String
  info_hash : String
deriving DecidableEq, Repr

/-- The `file_entries_by_infohash` lookup (line 126): the entries carrying
the given hash, in scan order. -/
def entriesByInfohash (files : List FileEntry) (h : String) : List FileEntry :=
  files.filter (fun fe => fe.info_hash == h)

/-- The link decision for one remote torrent (lines 118-129): first an exact
match of the descriptor basename against a scanned file name, else a
singleton identity group for the torrent's lowercased hash; `none` means the
torrent drifts. -/
def linkTarget (files : List FileEntry) (tor : RTorrent) : Option String :=
  let tfn := basename tor.torrentFile
  if files.any (fun fe => fe.name == tfn) then some tfn
  else
    match entriesByInfohash files (strToLower tor.hashString) with
    | [fe] => some fe.name
    | _ => none

/-- `fe.torrents.append(tor)` on the dictionary of per-entry torrent lists. -/
def appendLink (m : List (String × List RTorrent)) (name : String)
    (tor : RTorrent) : List (String × List RTorrent) :=
  m.map (fun p => if p.1 == name then (p.1, p.2 ++ [tor]) else p)

/-- One iteration of the linking loop of lines 118-129. -/
def linkStep (files : List FileEntry)
    (st : List (String × List RTorrent) × List RTorrent) (tor : RTorrent) :
    List (String × List RTorrent) × List RTorrent :=
  match linkTarget files tor with
  | some name => (appendLink st.1 name tor, st.2)
  | none => (st.1, st.2 ++ [tor])

/-- The linking loop of lines 116-129: starting from empty per-entry torrent
lists and an empty `drift_torrents`, process the remote torrents in order. -/
def linkLoop (files : List FileEntry) (torrents : List RTorrent) :
    List (String × List RTorrent) × List RTorrent :=
  torrents.foldl (linkStep files)
    (files.map (fun fe => (fe.name, ([] : List RTorrent))), [])

/-- Declarative reading of the loop: the torrents linked to a given entry. -/
def torrentsOf (files : List FileEntry) (torrents : List RTorrent)
    (fe : FileEntry) : List RTorrent :=
  torrents.filter (fun tor => linkTarget files tor = some fe.name)

/-- Declarative reading of the loop: the remote torrents that could not be
linked to any entry (`drift_torrents`). -/
def drift_torrents (files : List FileEntry) (torrents : List RTorrent) :
    List RTorrent :=
  torrents.filter (fun tor => (linkTarget files tor).isNone)

theorem linkLoop_fold (files : List FileEntry) (torrents : List RTorrent)
    (m : List (String × List RTorrent)) (d : List RTorrent) :
    torrents.foldl (linkStep files) (m, d) =
      (m.map (fun p =>
        (p.1, p.2 ++ torrents.filter (fun tor => linkTarget files tor = some p.1))),
       d ++ drift_torrents files torrents) := by
  induction torrents generalizing m d with
  | nil =>
    simp [drift_torrents]
  | cons t ts ih =>
    simp only [List.foldl_cons]
    cases hlt : linkTarget files t with
    | none =>
      have hstep : linkStep files (m, d) t = (m, d ++ [t]) := by
        simp [linkStep, hlt]
      rw [hstep, ih]
      refine congrArg₂ Prod.mk ?_ ?_
      · refine List.map_congr_left (fun p _ => ?_)
        simp [List.filter_cons, hlt]
      · simp [drift_torrents, List.filter_cons, hlt, List.append_assoc]
    | some name =>
      have hstep : linkStep files (m, d) t = (appendLink m name t, d) := by
        simp [linkStep, hlt]
      rw [hstep, ih]
      refine congrArg₂ Prod.mk ?_ ?_
      · rw [appendLink, List.map_map]
        refine List.map_congr_left (fun p _ => ?_)
        by_cases hp : p.1 = name
        · subst hp
          simp [List.filter_cons, hlt]
        · have hp2 : name ≠ p.1 := fun hx => hp hx.symm
          simp [List.filter_cons, hlt, hp, hp2]
      · simp [drift_torrents, List.filter_cons, hlt]

theorem linkLoop_fst (files : List FileEntry) (torrents : List RTorrent) :
    (linkLoop files torrents).1 =
      files.map (fun fe => (fe.name, torrentsOf files torrents fe)) := by
  rw [linkLoop, linkLoop_fold, List.map_map]
  refine congrArg₂ List.map ?_ rfl
  funext fe
  simp [torrentsOf]

theorem linkLoop_snd (files : List FileEntry) (torrents : List RTorrent) :
    (linkLoop files torrents).2 = drift_torrents files torrents := by
  rw [linkLoop, linkLoop_fold]
  simp

/-- The info hashes in first-occurrence order, the iteration order of the
`file_entries_by_infohash` dictionary. -/
def distinctHashes (files : List FileEntry) : List String :=
  files.foldl
    (fun acc fe =>
      if acc.contains fe.info_hash then acc else acc ++ [fe.info_hash]) []

/-- `dupih` (line 134): the identity groups of size greater than one, each
with its member entries in scan order. -/
def dupGroups (files : List FileEntry) : List (String × List FileEntry) :=
  (distinctHashes files).filterMap (fun h =>
    let g := entriesByInfohash files h
    if g.length > 1 then some (h, g) else none)

/-- The remove list built by the duplicate block (lines 132-143): for every
duplicate group with exactly one linked torrent overall, the paths of its
unlinked members.  Line 150 rebinds `remove_list`, so in the source this
value never reaches the deletion loop. -/
def dupih_remove_list (torrents_dir : String) (files : List FileEntry)
    (torrents : List RTorrent) : List String :=
  (dupGroups files).foldl
    (fun acc g =>
      if (g.2.map (fun fe => (torrentsOf files torrents fe).length)).sum = 1
      then
        acc ++ ((g.2.filter (fun fe => (torrentsOf files torrents fe).isEmpty)).map
          (fun fe => osJoin torrents_dir fe.name))
      else acc)
    []

/-- The duplicate-group report lines (lines 136-141): each group's hash with
a linked marker per member. -/
def dupihReports (files : List FileEntry) (torrents : List RTorrent) :
    List Report :=
  (dupGroups files).map (fun g =>
    Report.dupGroup g.1
      (g.2.map (fun fe => (!(torrentsOf files torrents fe).isEmpty, fe.name))))

/-- The `remove_list` rebuilt at line 150: the paths of every entry with no
linked torrent. -/
def remove_list_final (torrents_dir : String) (files : List FileEntry)
    (torrents : List RTorrent) : List String :=
  (files.filter (fun fe => (torrentsOf files torrents fe).isEmpty)).map
    (fun fe => osJoin torrents_dir fe.name)

/-- `TransmissionHelper.cleanup_torrentsdir` (lines 75-156), taking the
already-scanned file entries and the remote torrent list: report the
duplicate groups, then either report the drifted torrents and stop, or
rebuild `remove_list` from every unlinked entry (line 150, which discards the
duplicate-block list), apply the conservation check, and run the deletion
loop only when it passes. -/
def cleanup_torrentsdir (fs : FsState) (torrents_dir : String)
    (files : List FileEntry) (torrents : List RTorrent) (dryrun : Bool) :
    FsState × List Report × Option RemoveError :=
  let readReports :=
    [Report.readLocal files.length, Report.readRemote torrents.length]
  let st := linkLoop files torrents
  let remove_list := dupih_remove_list torrents_dir files torrents
  if st.2.isEmpty then
    let remove_list :=
      (st.1.filter (fun p => p.2.isEmpty)).map (fun p => osJoin torrents_dir p.1)
    let new_items_count : Int :=
      (torrents.length : Int) + remove_list.length - files.length
    if new_items_count = 0 then
      let r := removeAll dryrun fs remove_list
      (r.1, readReports ++ dupihReports files torrents ++ r.2.1, r.2.2)
    else
      (fs, readReports ++ dupihReports files torrents ++
        [Report.abortNewItems new_items_count], none)
  else
    (fs, readReports ++ dupihReports files torrents ++
      st.2.map (fun tor => Report.driftItem (strToLower tor.hashString)), none)

theorem cleanup_remove_list (torrents_dir : String) (files : List FileEntry)
    (torrents : List RTorrent) :
    ((linkLoop files torrents).1.filter (fun p => p.2.isEmpty)).map
        (fun p => osJoin torrents_dir p.1) =
      remove_list_final torrents_dir files torrents := by
  rw [linkLoop_fst, List.filter_map, List.map_map, remove_list_final]
  rfl

theorem removed_notin_dupihReports (files : List FileEntry)
    (torrents : List RTorrent) (p : String) :
    Report.removed p ∉ dupihReports files torrents := by
  intro hmem
  rcases List.mem_map.mp hmem with ⟨g, _, hg⟩
  exact absurd hg (by simp)

/-- C3: a non-empty drift set aborts the run with zero deletions — the
filesystem is returned unchanged, no removal is reported or raises, and every
drifted identity is reported. -/
theorem C3_drift_abort (fs : FsState) (torrents_dir : String)
    (files : List FileEntry) (torrents : List RTorrent) (dryrun : Bool)
    (h : drift_torrents files torrents ≠ []) :
    (cleanup_torrentsdir fs torrents_dir files torrents dryrun).1 = fs ∧
    (cleanup_torrentsdir fs torrents_dir files torrents dryrun).2.2 = none ∧
    (∀ p, Report.removed p ∉
      (cleanup_torrentsdir fs torrents_dir files torrents dryrun).2.1) ∧
    (∀ tor ∈ drift_torrents files torrents,
      Report.driftItem (strToLower tor.hashString) ∈
        (cleanup_torrentsdir fs torrents_dir files torrents dryrun).2.1) := by
  rcases hl : drift_torrents files torrents with _ | ⟨t0, rest⟩
  · exact absurd hl h
  · have hres : cleanup_torrentsdir fs torrents_dir files torrents dryrun =
        (fs,
         [Report.readLocal files.length, Report.readRemote torrents.length] ++
           dupihReports files torrents ++
           (t0 :: rest).map (fun tor => Report.driftItem (strToLower tor.hashString)),
         none) := by
      simp [cleanup_torrentsdir, linkLoop_snd, hl]
    rw [hres]
    refine ⟨rfl, rfl, ?_, ?_⟩
    · intro p hp
      rcases List.mem_append.mp hp with hp2 | hp2
      · rcases List.mem_append.mp hp2 with hp3 | hp3
        · simp at hp3
        · exact removed_notin_dupihReports files torrents p hp3
      · rcases List.mem_map.mp hp2 with ⟨tor, _, htor⟩
        exact absurd htor (by simp)
    · intro tor htor
      exact List.mem_append.mpr (Or.inr (List.mem_map.mpr ⟨tor, htor, rfl⟩))

/-- Filesystem for the C3 witness. -/
def w3Fs : FsState := ⟨[("T/x.torrent", FsKind.file)], []⟩

/-- Remote torrent for the C3 witness: no local artifact matches it. -/
def w3Tor : RTorrent := ⟨1, "h", "t"⟩

/-- Concrete instance of `C3_drift_abort`. -/
theorem C3_drift_abort_witness :
    (cleanup_torrentsdir w3Fs "T" [] [w3Tor] false).1 = w3Fs ∧
    Report.driftItem (strToLower w3Tor.hashString) ∈
      (cleanup_torrentsdir w3Fs "T" [] [w3Tor] false).2.1 := by
  have h := C3_drift_abort w3Fs "T" [] [w3Tor] false (by decide)
  exact ⟨h.1, h.2.2.2 w3Tor (by decide)⟩

/-- C4: with no drift, the conservation count is computed as the remote task
count plus the orphaned count minus the local artifact count; when it is
nonzero the run aborts with the filesystem unchanged and only the abort
report, and when it is zero the deletion pass is exactly `removeAll` applied
to the orphaned paths. -/
theorem C4_conservation (fs : FsState) (torrents_dir : String)
    (files : List FileEntry) (torrents : List RTorrent) (dryrun : Bool)
    (h : drift_torrents files torrents = []) :
    (((torrents.length : Int) +
        (remove_list_final torrents_dir files torrents).length -
        files.length ≠ 0 →
      cleanup_torrentsdir fs torrents_dir files torrents dryrun =
        (fs,
         [Report.readLocal files.length, Report.readRemote torrents.length] ++
           dupihReports files torrents ++
           [Report.abortNewItems ((torrents.length : Int) +
             (remove_list_final torrents_dir files torrents).length -
             files.length)],
         none)) ∧
     ((torrents.length : Int) +
        (remove_list_final torrents_dir files torrents).length -
        files.length = 0 →
      cleanup_torrentsdir fs torrents_dir files torrents dryrun =
        ((removeAll dryrun fs (remove_list_final torrents_dir files torrents)).1,
         [Report.readLocal files.length, Report.readRemote torrents.length] ++
           dupihReports files torrents ++
           (removeAll dryrun fs
             (remove_list_final torrents_dir files torrents)).2.1,
         (removeAll dryrun fs
           (remove_list_final torrents_dir files torrents)).2.2))) := by
  constructor
  · intro hn
    simp [cleanup_torrentsdir, linkLoop_snd, h, cleanup_remove_list, hn]
  · intro hn
    simp [cleanup_torrentsdir, linkLoop_snd, h, cleanup_remove_list, hn]

/-- Filesystem for the C4 witness. -/
def w4Fs : FsState := ⟨[("T/a.torrent", FsKind.file)], []⟩

/-- Scanned files for the C4 witness. -/
def w4Files : List FileEntry := [⟨"a.torrent", "h1"⟩]

/-- Remote torrents for the C4 witness: the single task links to the single
descriptor by basename. -/
def w4Tors : List RTorrent := [⟨1, "H1", "/x/a.torrent"⟩]

/-- Concrete instance of `C4_conservation` with a passing check. -/
theorem C4_conservation_witness :
    cleanup_torrentsdir w4Fs "T" w4Files w4Tors false =
      ((removeAll false w4Fs (remove_list_final "T" w4Files w4Tors)).1,
       [Report.readLocal w4Files.length, Report.readRemote w4Tors.length] ++
         dupihReports w4Files w4Tors ++
         (removeAll false w4Fs (remove_list_final "T" w4Files w4Tors)).2.1,
       (removeAll false w4Fs (remove_list_final "T" w4Files w4Tors)).2.2) :=
  (C4_conservation w4Fs "T" w4Files w4Tors false (by decide)).2 (by decide)

/-- C5: a remote task is linked by, in order: (a) a local artifact whose file
name equals the basename of the task's source descriptor, (b) failing that, a
singleton identity group for the task's identity; a task linked by neither
rule joins the drifted set. -/
theorem C5_linking_order (files : List FileEntry) (torrents : List RTorrent)
    (tor : RTorrent) :
    ((∃ fe ∈ files, fe.name = basename tor.torrentFile) →
      linkTarget files tor = some (basename tor.torrentFile)) ∧
    ((¬ ∃ fe ∈ files, fe.name = basename tor.torrentFile) →
      ∀ fe, entriesByInfohash files (strToLower tor.hashString) = [fe] →
        linkTarget files tor = some fe.name) ∧
    ((¬ ∃ fe ∈ files, fe.name = basename tor.torrentFile) →
      (∀ fe, entriesByInfohash files (strToLower tor.hashString) ≠ [fe]) →
      tor ∈ torrents → tor ∈ drift_torrents files torrents) := by
  have hany_of : (¬ ∃ fe ∈ files, fe.name = basename tor.torrentFile) →
      files.any (fun fe => fe.name == basename tor.torrentFile) = false := by
    intro hnex
    rw [List.any_eq_false]
    intro fe2 hmem
    simp only [beq_iff_eq]
    exact fun hx => hnex ⟨fe2, hmem, hx⟩
  refine ⟨?_, ?_, ?_⟩
  · intro hex
    have hany : files.any (fun fe => fe.name == basename tor.torrentFile) = true := by
      rcases hex with ⟨fe, hmem, heq⟩
      exact List.any_eq_true.mpr ⟨fe, hmem, by simp [heq]⟩
    simp [linkTarget, hany]
  · intro hnex fe hg
    simp [linkTarget, hany_of hnex, hg]
  · intro hnex hall htor
    have hlt : linkTarget files tor = none := by
      rcases h3 : entriesByInfohash files (strToLower tor.hashString) with _ | ⟨fe, rest⟩
      · simp [linkTarget, hany_of hnex, h3]
      · rcases rest with _ | ⟨fe2, rest2⟩
        · exact absurd h3 (hall fe)
        · simp [linkTarget, hany_of hnex, h3]
    rw [drift_torrents, List.mem_filter]
    exact ⟨htor, by simp [hlt]⟩

/-- Scanned files for the C5 witness. -/
def w5Files : List FileEntry := [⟨"a.torrent", "h"⟩]

/-- Remote torrent for the C5 witness, linked by descriptor basename. -/
def w5Tor : RTorrent := ⟨1, "H", "d/a.torrent"⟩

/-- Concrete instance of rule (a) of `C5_linking_order`. -/
theorem C5_linking_order_witness :
    linkTarget w5Files w5Tor = some (basename w5Tor.torrentFile) :=
  (C5_linking_order w5Files [] w5Tor).1 (by decide)

/-- Scanned files for the C1 failing input: a duplicate identity group of two
descriptor files sharing one info hash, with no remote task at all. -/
def c1Files : List FileEntry := [⟨"a.torrent", "aaaa"⟩, ⟨"b.torrent", "aaaa"⟩]

/-- Filesystem for the C1 failing input: the two descriptor files on disk. -/
def c1Fs : FsState :=
  ⟨[(osJoin "T" "a.torrent", FsKind.file), (osJoin "T" "b.torrent", FsKind.file)],
   []⟩

/-- C1 (code bug): on a duplicate identity group with zero linked members,
the duplicate block of lines 132-143 adds nothing to its remove list — its
own rule permits deletion only when exactly one torrent is linked — yet the
run deletes both members of the group, because line 150 rebinds
`remove_list` to every unlinked entry, discarding the duplicate-safety
computation entirely. -/
theorem C1_duplicate_group_deleted :
    dupih_remove_list "T" c1Files [] = [] ∧
    torrentsOf c1Files [] ⟨"a.torrent", "aaaa"⟩ = [] ∧
    torrentsOf c1Files [] ⟨"b.torrent", "aaaa"⟩ = [] ∧
    (dupGroups c1Files).length = 1 ∧
    (cleanup_torrentsdir c1Fs "T" c1Files [] false).1.entries = [] ∧
    Report.removed (osJoin "T" "a.torrent") ∈
      (cleanup_torrentsdir c1Fs "T" c1Files [] false).2.1 ∧
    Report.removed (osJoin "T" "b.torrent") ∈
      (cleanup_torrentsdir c1Fs "T" c1Files [] false).2.1 := by
  decide

/-- A remote task as fetched by `App.remove_finished` (source line 238). -/
structure FinTorrent where
  id : Nat
  status : String
  isFinished : Bool
  doneDate : Int
deriving DecidableEq, Repr

/-- The finished-id collection loop of `App.remove_finished` (lines 239-245):
a stopped task with the finished flag is collected, otherwise any task with a
positive done timestamp is collected — the second branch does not look at the
status. -/
def remove_finished_ids (torrents : List FinTorrent) : List Nat :=
  torrents.foldl
    (fun finished t =>
      if t.isFinished && (t.status == "stopped") then finished ++ [t.id]
      else if t.doneDate > 0 then finished ++ [t.id]
      else finished)
    []

/-- The specification's finished predicate, stated from the spec text for
comparison with the code: finished iff (`doneTimestamp > 0` and stopped) or
(`isFinishedFlag` and stopped). -/
def spec_finished (t : FinTorrent) : Prop :=
  (t.doneDate > 0 ∧ t.status = "stopped") ∨
    (t.isFinished = true ∧ t.status = "stopped")

/-- The C2 failing input: a downloading task with a positive done timestamp. -/
def c2Tor : FinTorrent := ⟨7, "downloading", false, 1700000000⟩

/-- C2 counterexample: the code collects a downloading task with a positive
done timestamp for removal, although the specification's finished predicate
rejects every task whose status is not stopped. -/
theorem C2_counterexample :
    remove_finished_ids [c2Tor] = [7] ∧ ¬ spec_finished c2Tor := by
  constructor
  · rfl
  · unfold spec_finished
    decide

theorem remove_finished_ids_fold (torrents : List FinTorrent)
    (acc : List Nat) :
    torrents.foldl
        (fun finished t =>
          if t.isFinished && (t.status == "stopped") then finished ++ [t.id]
          else if t.doneDate > 0 then finished ++ [t.id]
          else finished) acc =
      acc ++ (torrents.filter
        (fun t => t.isFinished && (t.status == "stopped") ||
          decide (t.doneDate > 0))).map (fun t => t.id) := by
  induction torrents generalizing acc with
  | nil => simp
  | cons t ts ih =>
    simp only [List.foldl_cons, List.filter_cons]
    by_cases h1 : (t.isFinished && (t.status == "stopped")) = true
    · rw [if_pos h1, ih, h1, Bool.true_or, if_pos rfl]
      simp
    · rw [if_neg h1]
      by_cases h2 : t.doneDate > 0
      · rw [if_pos h2, ih]
        have hp : (t.isFinished && (t.status == "stopped") ||
            decide (t.doneDate > 0)) = true := by
          simp [h2]
        rw [hp, if_pos rfl]
        simp
      · rw [if_neg h2, ih]
        have hp : (t.isFinished && (t.status == "stopped") ||
            decide (t.doneDate > 0)) = false := by
          simp [h2]
          simpa using h1
        rw [hp]
        simp

/-- C2 amended: a task is classified finished exactly when (its finished flag
is set and its status is stopped) or its done timestamp is positive; the
done-timestamp disjunct carries no status requirement. -/
theorem C2_finished_classification (torrents : List FinTorrent) :
    remove_finished_ids torrents =
      (torrents.filter
        (fun t => t.isFinished && (t.status == "stopped") ||
          decide (t.doneDate > 0))).map (fun t => t.id) := by
  rw [remove_finished_ids]
  simpa using remove_finished_ids_fold torrents []

/-- The daemon-side removal call issued over RPC (line 248). -/
structure RpcRemoveCall where
  ids : List Nat
  delete_data : Bool
deriving DecidableEq, Repr

/-- `App.remove_finished` (lines 234-248): report how many tasks will be
removed, and issue the daemon removal call only when some task was collected
and dry-run is off. -/
def remove_finished (torrents : List FinTorrent) (dryrun : Bool)
    (delete_data : Bool) : List Report × Option RpcRemoveCall :=
  let finished := remove_finished_ids torrents
  ([Report.totalWillRemove finished.length],
   if !finished.isEmpty && !dryrun then
     some { ids := finished, delete_data := delete_data }
   else none)

/-- C10: under the dry-run flag, `remove_finished` never issues the daemon
removal call, for any task list; it only reports the count of tasks that
would be removed. -/
theorem C10_dryrun_no_rpc (torrents : List FinTorrent) (delete_data : Bool) :
    remove_finished torrents true delete_data =
      ([Report.totalWillRemove (remove_finished_ids torrents).length], none) := by
  simp [remove_finished]
